import Mathlib

/-
Verification of the paginated, rate-limited, retrying data-retrieval engine
and the incremental synchronization logic of python-github-backup
(src/github_backup/github_backup.py), via a shallow embedding in Lean 4.

The network and the filesystem are modelled explicitly: a page fetch is driven
by a scripted list of attempt outcomes (success / HTTPError / URLError /
socket.error), the server for the pagination layer is a function from page
numbers to responses, and the watermark file is a string value threaded
between runs.  Machine side effects (sleeps, requests, directory creation)
are recorded in the returned values so that theorems can speak about them.
-/

namespace GithubBackup

/-! ## `_request_http_error` (github_backup.py lines 369-396)

The source receives the `HTTPError` exception, the auth value (used only for a
log hint) and the accumulated `errors` list.  It reads the
`x-ratelimit-remaining` header (missing header parsed as 0), and on a 403 with
remaining < 1 it computes `reset` from the `x-ratelimit-reset` header — with
Python's `int(headers.get(..., 0)) or gm_now` turning a missing or zero header
into the current time — sleeps `max(10, reset - gm_now)` seconds and asks the
caller to retry.  The model returns (errors, should_continue, seconds slept);
the `errors` list is returned unchanged, exactly as in the source. -/

def _request_http_error (code : Int) (remaining reset : Option Int) (gm_now : Int)
    (errors : List String) : List String × Bool × Int :=
  let limit_remaining : Int := remaining.getD 0
  if code = 403 ∧ limit_remaining < 1 then
    let reset0 : Int := reset.getD 0
    let reset1 : Int := if reset0 = 0 then gm_now else reset0
    let delta : Int := max 10 (reset1 - gm_now)
    (errors, true, delta)
  else
    (errors, false, 0)

/-! ## `_request_url_error` (lines 399-409)

Receives the caller's retry counter *by value*, decrements its local copy and
returns whether the caller should retry; when the decremented copy is negative
the source calls `log_error`, which terminates the process (that branch is
modelled by the `false` return, on which `_get_response` re-raises — both are
fatal). -/

def _request_url_error (retry_timeout : Int) : Bool :=
  decide (0 ≤ retry_timeout - 1)

/-- One iteration outcome of `urlopen(request)` inside `_get_response`:
either a response (carrying an opaque payload `ρ`), an `HTTPError` with status
code and rate-limit headers plus the current time `gm_now` observed by the
handler, a `URLError`, or a `socket.error`. -/
inductive Attempt (ρ : Type) where
  | success (r : ρ)
  | httpError (code : Int) (remaining reset : Option Int) (gm_now : Int)
  | urlError
  | socketError
  deriving DecidableEq

/-- Result of `_get_response`: `ok` returns the attempt whose response object
(for `HTTPError`, the exception itself, which behaves like a response) is
handed back, together with the `errors` list and the total seconds slept;
`fatal` covers both the re-`raise` and the `log_error` process exit; a scripted
attempt list that is exhausted while the loop would continue is reported as
`noMoreAttempts`. -/
inductive FetchOutcome (ρ : Type) where
  | ok (result : Attempt ρ) (errors : List String) (slept : Int)
  | fatal (slept : Int)
  | noMoreAttempts (slept : Int)
  deriving DecidableEq

/-- The retry loop of `_get_response` (lines 320-347).  `retry_timeout` is the
local variable initialised to 3; note that the source passes it to
`_request_url_error` unchanged on every iteration — Python integers are passed
by value, so the decrement inside `_request_url_error` never reaches this
loop. -/
def getResponseGo {ρ : Type} (retry_timeout : Int) (slept : Int) (errors : List String) :
    List (Attempt ρ) → FetchOutcome ρ
  | [] => FetchOutcome.noMoreAttempts slept
  | Attempt.success r :: _ => FetchOutcome.ok (Attempt.success r) errors slept
  | Attempt.httpError code remaining reset gm_now :: rest =>
    let res := _request_http_error code remaining reset gm_now errors
    if res.2.1 then
      getResponseGo retry_timeout (slept + res.2.2) res.1 rest
    else
      FetchOutcome.ok (Attempt.httpError code remaining reset gm_now) res.1 (slept + res.2.2)
  | Attempt.urlError :: rest =>
    if _request_url_error retry_timeout then
      getResponseGo retry_timeout slept errors rest
    else
      FetchOutcome.fatal slept
  | Attempt.socketError :: rest =>
    if _request_url_error retry_timeout then
      getResponseGo retry_timeout slept errors rest
    else
      FetchOutcome.fatal slept

/-- `_get_response(request, auth, template)`: `retry_timeout = 3`,
`errors = []`, then the loop above over the scripted attempts. -/
def _get_response {ρ : Type} (attempts : List (Attempt ρ)) : FetchOutcome ρ :=
  getResponseGo 3 0 [] attempts

/-! Theorems for C1 and C2. -/

theorem getResponseGo_urlError_cons {ρ : Type} (s : Int) (e : List String)
    (rest : List (Attempt ρ)) :
    getResponseGo 3 s e (Attempt.urlError :: rest) = getResponseGo 3 s e rest := by
  simp [getResponseGo, _request_url_error]

/-- C1: the spec claims connection-level URL/socket errors are retried at most
3 times and then become fatal.  In the code `_get_response` passes the constant
3 to `_request_url_error` on every iteration, so the retry guard
`retry_timeout - 1 >= 0` always holds and the fatal branch is unreachable: any
number of consecutive URL errors followed by a success still yields the
success, with no sleep and no recorded error. -/
theorem c1_url_error_retried_without_bound (n : Nat) (r : Nat) :
    _get_response (List.replicate n Attempt.urlError ++ [Attempt.success r]) =
      FetchOutcome.ok (Attempt.success r) [] 0 := by
  induction n with
  | zero => rfl
  | succ k ih =>
    have h : (List.replicate (k + 1) (Attempt.urlError (ρ := Nat)) ++ [Attempt.success r])
        = Attempt.urlError :: (List.replicate k Attempt.urlError ++ [Attempt.success r]) := by
      simp [List.replicate_succ]
    rw [_get_response, h, getResponseGo_urlError_cons]
    exact ih

theorem getResponseGo_ratelimit403 {ρ : Type} (remaining resetv gm_now : Int)
    (h1 : remaining < 1) (h2 : resetv ≠ 0) (n : Nat) (r : ρ) (s : Int) :
    getResponseGo 3 s []
        (List.replicate n (Attempt.httpError 403 (some remaining) (some resetv) gm_now)
          ++ [Attempt.success r]) =
      FetchOutcome.ok (Attempt.success r) [] (s + n * max 10 (resetv - gm_now)) := by
  induction n generalizing s with
  | zero => simp [getResponseGo]
  | succ k ih =>
    rw [List.replicate_succ, List.cons_append, getResponseGo]
    have hh : _request_http_error 403 (some remaining) (some resetv) gm_now [] =
        ([], true, max 10 (resetv - gm_now)) := by
      simp [_request_http_error, h1, h2]
    rw [hh]
    simp only []
    rw [ih (s + max 10 (resetv - gm_now))]
    push_cast
    ring_nf

/-- C2: on an HTTP 403 whose `x-ratelimit-remaining` header is below 1, the
handler asks the caller to continue with a sleep of
`max(10, reset - gm_now)` seconds and leaves the `errors` list untouched; the
`_get_response` loop therefore retries the same request indefinitely — any
number `n` of such 403 responses followed by a success yields the success,
never the fatal outcome, sleeping `n * max(10, reset - gm_now)` seconds in
total.  The 502 retry counter lives in `retrieve_data_gen` and only ever
observes the final response of this loop, so these retries consume none of
that budget. -/
theorem c2_rate_limit_backoff (remaining resetv gm_now : Int) (errors : List String)
    (n : Nat) (r : Nat) (h1 : remaining < 1) (h2 : resetv ≠ 0) :
    _request_http_error 403 (some remaining) (some resetv) gm_now errors =
      (errors, true, max 10 (resetv - gm_now))
    ∧ _get_response
        (List.replicate n (Attempt.httpError 403 (some remaining) (some resetv) gm_now)
          ++ [Attempt.success r]) =
      FetchOutcome.ok (Attempt.success r) [] (n * max 10 (resetv - gm_now)) := by
  constructor
  · simp [_request_http_error, h1, h2]
  · have h := getResponseGo_ratelimit403 remaining resetv gm_now h1 h2 n r 0
    rw [_get_response, h]
    simp

/-- Witness for C2 at the spec's own example: `remaining = 0`,
`reset = now + 5` (now = 100, reset = 105) — the fetcher sleeps 10 seconds
(the floor), not 5, and two such 403s followed by a success give the success
after 20 seconds of sleep. -/
theorem c2_rate_limit_backoff_witness :
    _request_http_error 403 (some 0) (some 105) 100 [] = ([], true, 10)
    ∧ _get_response
        (List.replicate 2 (Attempt.httpError 403 (some 0) (some 105) 100)
          ++ [Attempt.success (0 : Nat)]) =
      FetchOutcome.ok (Attempt.success 0) [] 20 := by
  have h := c2_rate_limit_backoff 0 105 100 [] 2 0 (by decide) (by decide)
  simpa using h

/-! ## `retrieve_data_gen` (lines 257-307)

The pagination layer.  The server is modelled as a function from page numbers
to responses; a response carries the HTTP status (after `_get_response`
returned it), the `x-ratelimit-remaining` header and a JSON body, which is
either a list of items, a single object (dict), or some other JSON value.
The 502 retry loop re-requests the same page up to 3 times with a 5-second
delay; with a deterministic server a 502 page stays 502 and, the loop over,
the `status != 200` check terminates the run (`log_error`).  Requests issued
(by page number, in order), items yielded, seconds slept and the kind of
termination are all recorded.  Recursion is fuelled because the source's
`while True` loop need not terminate on its own. -/

inductive Body (ρ : Type) where
  | items (l : List ρ)
  | single (r : ρ)
  | other
  deriving DecidableEq

structure PageResp (ρ : Type) where
  status : Nat
  remaining : Option Int := none
  body : Body ρ
  deriving DecidableEq

inductive Term where
  | normal
  | fatal
  | fuel
  deriving DecidableEq

structure GenOut (ρ : Type) where
  reqs : List Nat
  ys : List ρ
  slept : Int
  term : Term
  deriving DecidableEq

/-- The throttle options (`args.throttle_limit`, `args.throttle_pause`);
`throttle_limit` is falsy in Python when `None` or `0`. -/
structure ThrottleArgs where
  throttle_limit : Option Int := none
  throttle_pause : Int := 0
  deriving DecidableEq

/-- Lines 269-276: after the first response of a page, if a throttle limit is
configured and `x-ratelimit-remaining` (missing header read as 0) is at or
below it, sleep `throttle_pause` seconds. -/
def throttleSleep {ρ : Type} (t : ThrottleArgs) (r : PageResp ρ) : Int :=
  match t.throttle_limit with
  | none => 0
  | some tl => if tl ≠ 0 ∧ r.remaining.getD 0 ≤ tl then t.throttle_pause else 0

/-- Requests issued for one page slot: the initial request, plus the three
5-second-delayed re-requests of the same page number when the (deterministic)
server answers 502 (lines 278-286). -/
def pageReqs {ρ : Type} (r : PageResp ρ) (page : Nat) : List Nat :=
  if r.status = 502 then [page, page, page, page] else [page]

def pageSleep {ρ : Type} (t : ThrottleArgs) (r : PageResp ρ) : Int :=
  throttleSleep t r + (if r.status = 502 then 15 else 0)

/-- The `while True` page loop of `retrieve_data_gen`, entered with the page
counter already incremented (the source starts at `page = 0` and increments at
the top).  A list body is yielded item by item and pagination ends when the
page is shorter than `per_page = 100` (or, after yielding, when
`single_request` is set); a dict body is yielded only when `single_request` is
set; any other body yields nothing; absent `single_request`, a non-list body
does not terminate the loop.  A final status other than 200 calls `log_error`
(fatal).  The `errors` list returned by `_get_response` is empty on every
non-fatal path (see the C2 theorem), so the `len(errors)` guards are not
represented. -/
def retrieve_data_go {ρ : Type} (t : ThrottleArgs) (single_request : Bool)
    (pages : Nat → PageResp ρ) : Nat → Nat → GenOut ρ
  | 0, _ => ⟨[], [], 0, Term.fuel⟩
  | fuel + 1, page =>
    let r := pages page
    let reqs := pageReqs r page
    let slept := pageSleep t r
    if r.status ≠ 200 then ⟨reqs, [], slept, Term.fatal⟩
    else
      match r.body with
      | Body.items l =>
        if l.length < 100 ∨ single_request then ⟨reqs, l, slept, Term.normal⟩
        else
          let rest := retrieve_data_go t single_request pages fuel (page + 1)
          ⟨reqs ++ rest.reqs, l ++ rest.ys, slept + rest.slept, rest.term⟩
      | Body.single x =>
        if single_request then ⟨reqs, [x], slept, Term.normal⟩
        else
          let rest := retrieve_data_go t single_request pages fuel (page + 1)
          ⟨reqs ++ rest.reqs, rest.ys, slept + rest.slept, rest.term⟩
      | Body.other =>
        if single_request then ⟨reqs, [], slept, Term.normal⟩
        else
          let rest := retrieve_data_go t single_request pages fuel (page + 1)
          ⟨reqs ++ rest.reqs, rest.ys, slept + rest.slept, rest.term⟩

def retrieve_data_gen {ρ : Type} (t : ThrottleArgs) (single_request : Bool)
    (pages : Nat → PageResp ρ) (fuel : Nat) : GenOut ρ :=
  retrieve_data_go t single_request pages fuel 1

/-- Every page-loop iteration requests its own page first. -/
theorem retrieve_data_go_reqs_head {ρ : Type} (t : ThrottleArgs) (single : Bool)
    (pages : Nat → PageResp ρ) (fuel page : Nat) :
    (retrieve_data_go t single pages (fuel + 1) page).reqs.head? = some page := by
  rw [retrieve_data_go]
  by_cases hs : (pages page).status ≠ 200
  · simp [hs, pageReqs]
    by_cases h5 : (pages page).status = 502 <;> simp [h5]
  · cases hb : (pages page).body with
    | items l =>
      by_cases hl : l.length < 100 ∨ single <;>
        simp [hs, hb, hl, pageReqs] <;>
        by_cases h5 : (pages page).status = 502 <;> simp [h5]
    | single x =>
      by_cases hx : single <;>
        simp [hs, hb, hx, pageReqs] <;>
        by_cases h5 : (pages page).status = 502 <;> simp [h5]
    | other =>
      by_cases hx : single <;>
        simp [hs, hb, hx, pageReqs] <;>
        by_cases h5 : (pages page).status = 502 <;> simp [h5]

/-- C3: a successful page whose body is a list of fewer than 100 items is
yielded in full and pagination terminates normally with that page as the only
request of the remaining run; a successful page whose body is a list of
exactly 100 items (with `single_request` unset) is immediately followed by
exactly one request for the next page number. -/
theorem c3_page_size_pagination {ρ : Type} (t : ThrottleArgs) (single : Bool)
    (pages : Nat → PageResp ρ) (p fuel : Nat) (l : List ρ)
    (hs : (pages p).status = 200) (hb : (pages p).body = Body.items l) :
    (l.length < 100 →
      (retrieve_data_go t single pages (fuel + 1) p).reqs = [p]
      ∧ (retrieve_data_go t single pages (fuel + 1) p).ys = l
      ∧ (retrieve_data_go t single pages (fuel + 1) p).term = Term.normal)
    ∧ (l.length = 100 →
      (retrieve_data_go t false pages (fuel + 2) p).reqs.take 2 = [p, p + 1]) := by
  constructor
  · intro hl
    rw [retrieve_data_go]
    simp [hs, hb, hl, pageReqs, hs]
  · intro hl
    have hhead := retrieve_data_go_reqs_head t false pages fuel (p + 1)
    rcases hrest : (retrieve_data_go t false pages (fuel + 1) (p + 1)).reqs with _ | ⟨a, rest⟩
    · rw [hrest] at hhead
      exact absurd hhead (by simp)
    · rw [hrest] at hhead
      have ha : a = p + 1 := by simpa using hhead
      rw [retrieve_data_go]
      simp [hs, hb, hl, pageReqs, hrest, ha]

/-- Concrete server for the C3 witness: page 1 is full (100 items), page 2 is
short. -/
def c3Pages : Nat → PageResp Nat := fun p =>
  if p = 1 then ⟨200, none, Body.items (List.replicate 100 0)⟩
  else ⟨200, none, Body.items [5]⟩

/-- Witness for C3 at a concrete server: the full page 1 is followed by a
request for page 2, and the short page 2, fetched on its own, is the only
request and yields its single item. -/
theorem c3_page_size_pagination_witness :
    (retrieve_data_go ⟨none, 0⟩ false c3Pages 2 1).reqs.take 2 = [1, 2]
    ∧ (retrieve_data_go ⟨none, 0⟩ false c3Pages 1 2).reqs = [2]
    ∧ (retrieve_data_go ⟨none, 0⟩ false c3Pages 1 2).ys = [5]
    ∧ (retrieve_data_go ⟨none, 0⟩ false c3Pages 1 2).term = Term.normal := by
  have h1 := (c3_page_size_pagination ⟨none, 0⟩ false c3Pages 1 0
    (List.replicate 100 0) (by rfl) (by rfl)).2 (by simp)
  have h2 := (c3_page_size_pagination ⟨none, 0⟩ false c3Pages 2 0
    [5] (by rfl) (by rfl)).1 (by simp)
  exact ⟨h1, h2.1, h2.2.1, h2.2.2⟩

/-- Concrete server for the C4 counterexample: every page is a single JSON
object. -/
def c4Pages : Nat → PageResp Nat := fun _ => ⟨200, none, Body.single 7⟩

/-- C4 counterexample: with the single-request flag *unset*, a successful
response whose body is a single JSON object is **not** yielded and pagination
does **not** stop — the loop issues a request for page 2.  This refutes the
claim's "for every value of the single-request flag". -/
theorem c4_single_object_counterexample :
    ¬ ((retrieve_data_gen ⟨none, 0⟩ false c4Pages 2).ys = [7]
        ∧ (retrieve_data_gen ⟨none, 0⟩ false c4Pages 2).reqs = [1]) := by
  decide

/-- C4 amended: whenever a successful response body is a single JSON object
and the single-request flag is set, that object is yielded exactly once and
pagination stops immediately with no further page request. -/
theorem c4_single_object_amended {ρ : Type} (t : ThrottleArgs)
    (pages : Nat → PageResp ρ) (p fuel : Nat) (x : ρ)
    (hs : (pages p).status = 200) (hb : (pages p).body = Body.single x) :
    (retrieve_data_go t true pages (fuel + 1) p).reqs = [p]
    ∧ (retrieve_data_go t true pages (fuel + 1) p).ys = [x]
    ∧ (retrieve_data_go t true pages (fuel + 1) p).term = Term.normal := by
  rw [retrieve_data_go]
  simp [hs, hb, pageReqs]

/-- Witness for the amended C4 at a concrete server. -/
theorem c4_single_object_amended_witness :
    (retrieve_data_go ⟨none, 0⟩ true c4Pages 1 1).reqs = [1]
    ∧ (retrieve_data_go ⟨none, 0⟩ true c4Pages 1 1).ys = [7]
    ∧ (retrieve_data_go ⟨none, 0⟩ true c4Pages 1 1).term = Term.normal :=
  c4_single_object_amended ⟨none, 0⟩ c4Pages 1 0 7 (by rfl) (by rfl)

/-! ## Python string primitives

The source compares ISO-8601 timestamps as Python strings: lexicographically
by code point, with a proper prefix comparing smaller.  That is exactly the
lexicographic order on the strings' character lists, so `u < s` and `u >= s`
are embedded as `pyStrLt`/`pyStrLe` below (Python's `>=` on strings is the
negation of `<`, the order being total).  `str.strip()` drops whitespace from
both ends. -/

def pyStrLt (a b : String) : Prop := a.data < b.data

def pyStrLe (a b : String) : Prop := a.data ≤ b.data

instance (a b : String) : Decidable (pyStrLt a b) := by
  unfold pyStrLt
  infer_instance

instance (a b : String) : Decidable (pyStrLe a b) := by
  unfold pyStrLe
  infer_instance

/-- Python's `max` of two strings: `if m < x: m = x`. -/
def pyMax (m x : String) : String := if pyStrLt m x then x else m

/-- Python's `str.lower()` (the repository's language names are ASCII, where
`Char.toLower` agrees with Python). -/
def pyLower (s : String) : String := String.mk (s.data.map Char.toLower)

/-- Python's `str.strip()`. -/
def pyStrip (s : String) : String :=
  String.mk (((s.data.dropWhile Char.isWhitespace).reverse.dropWhile
    Char.isWhitespace).reverse)

/-! ## Repositories, the `last_update` watermark and `backup_repositories`
(lines 558-633)

A repository record with the fields the core inspects.  `priv` stands for the
source's `private` field (a Lean keyword); `public` is the extra key present
on gists.  Timestamps are the ISO-8601 strings the API returns, compared as
strings exactly as Python does. -/

structure Repo where
  name : String := ""
  owner_login : Option String := none
  is_starred : Bool := false
  fork : Bool := false
  priv : Bool := false
  public : Option Bool := none
  language : Option String := none
  updated_at : String := ""
  deriving DecidableEq

/-- Reading the `last_update` file: `open(last_update_path).read().strip()`
(line 566). -/
def read_last_update (contents : String) : String := pyStrip contents

/-- Line 563: `last_update = max(list(r['updated_at'] for r in repositories)
or [strftime(now)])` — the maximum `updated_at` of the current repository set,
or the current time when the set is empty. -/
def computeLastUpdate (repos : List Repo) (now : String) : String :=
  match repos.map (fun r => r.updated_at) with
  | [] => now
  | x :: xs => xs.foldl pyMax x

/-- The watermark behaviour of one `backup_repositories` run (lines 562-571
and 632-633): under `--incremental` the run uses the trimmed contents of an
existing `last_update` file as `args.since` (absent file: `None`) and, at the
end of a successful pass, writes `computeLastUpdate` of *this* run's
repository set; without `--incremental` nothing is read or written. -/
structure WatermarkRun where
  since : Option String
  written : Option String
  deriving DecidableEq

def backup_repositories_watermark (incremental : Bool) (file : Option String)
    (repos : List Repo) (now : String) : WatermarkRun :=
  if incremental then
    { since := file.map read_last_update
      written := some (computeLastUpdate repos now) }
  else
    { since := none, written := none }

/-! ## `backup_pulls` (lines 694-757): the cutoff loop

One pass of the `for pull in _pulls` loop (the source runs one pass per state
in the non-detailed path).  The loop breaks at the first item whose
`updated_at` is strictly below `args.since` and otherwise stores the item in
the `pulls` dict keyed by `number`; the insertion sequence is modelled as the
list of (number, pull) assignments in order. -/

structure Pull where
  number : Nat
  updated_at : String
  deriving DecidableEq

def pullsPass (since : Option String) : List Pull → List (Nat × Pull)
  | [] => []
  | p :: ps =>
    match since with
    | none => (p.number, p) :: pullsPass none ps
    | some s =>
      if pyStrLt p.updated_at s then []
      else if pyStrLe s p.updated_at then (p.number, p) :: pullsPass (some s) ps
      else pullsPass (some s) ps

theorem pullsPass_eq_takeWhile (s : String) (l : List Pull) :
    pullsPass (some s) l
      = (l.takeWhile (fun p => pyStrLe s p.updated_at)).map (fun p => (p.number, p)) := by
  induction l with
  | nil => rfl
  | cons p ps ih =>
    by_cases h : pyStrLt p.updated_at s
    · have h2 : ¬ pyStrLe s p.updated_at := not_le.mpr h
      simp [pullsPass, h, List.takeWhile_cons, h2]
    · have h2 : pyStrLe s p.updated_at := not_lt.mp h
      simp [pullsPass, h, h2, List.takeWhile_cons, ih]

theorem mem_takeWhile_of_sorted (s : String) (l : List Pull)
    (hsort : l.Pairwise (fun a b => pyStrLe b.updated_at a.updated_at)) (p : Pull)
    (hp : p ∈ l) (hle : pyStrLe s p.updated_at) :
    p ∈ l.takeWhile (fun q => pyStrLe s q.updated_at) := by
  induction l with
  | nil => simp at hp
  | cons a t ih =>
    have ha : ∀ b ∈ t, pyStrLe b.updated_at a.updated_at := (List.pairwise_cons.mp hsort).1
    have htail := (List.pairwise_cons.mp hsort).2
    rcases List.mem_cons.mp hp with hpa | hpt
    · subst hpa
      simp [List.takeWhile_cons, hle]
    · have haa : pyStrLe s a.updated_at := le_trans hle (ha p hpt)
      have := ih htail hpt
      simp [List.takeWhile_cons, haa, this]

/-- C5: round-trip of the Cutoff through the watermark file.  A cutoff
timestamp `s` (no surrounding whitespace, as produced by `strftime`/the API)
written at the end of run N is read back unchanged by run N+1
(`read_last_update s = s`); consuming a pull stream sorted descending by
`updated_at` under that cutoff, the loop processes exactly the longest prefix
of items with `updated_at >= s` (so it stops at the first older item and never
consumes the rest), excludes every item strictly older than the cutoff, and
includes every item at or after the cutoff. -/
theorem c5_cutoff_round_trip (s : String) (l : List Pull)
    (hs : read_last_update s = s)
    (hsort : l.Pairwise (fun a b => pyStrLe b.updated_at a.updated_at)) :
    pullsPass (some (read_last_update s)) l
        = (l.takeWhile (fun p => pyStrLe s p.updated_at)).map (fun p => (p.number, p))
    ∧ (∀ p ∈ l, pyStrLt p.updated_at s →
        p ∉ (pullsPass (some (read_last_update s)) l).map Prod.snd)
    ∧ (∀ p ∈ l, pyStrLe s p.updated_at →
        p ∈ (pullsPass (some (read_last_update s)) l).map Prod.snd) := by
  rw [hs]
  refine ⟨pullsPass_eq_takeWhile s l, ?_, ?_⟩
  · intro p _ hlt hmem
    rw [pullsPass_eq_takeWhile s l] at hmem
    simp only [List.map_map, List.mem_map] at hmem
    rcases hmem with ⟨q, hq, hqp⟩
    have hqle : pyStrLe s q.updated_at := by
      have := List.mem_takeWhile_imp hq
      simpa using this
    have hq2 : q = p := hqp
    subst hq2
    exact absurd hqle (not_le.mpr hlt)
  · intro p hp hle
    rw [pullsPass_eq_takeWhile s l]
    have hmem := mem_takeWhile_of_sorted s l hsort p hp hle
    simp only [List.map_map, List.mem_map]
    exact ⟨p, hmem, rfl⟩

/-- Concrete pull stream for the C5 witness, sorted descending by
`updated_at`. -/
def c5Stream : List Pull := [⟨1, "z"⟩, ⟨2, "m"⟩, ⟨3, "a"⟩]

/-- Witness for C5 at the cutoff "m": the processed items are exactly the
prefix at or after the cutoff, the pull updated exactly at the cutoff is
included and the older one is excluded. -/
theorem c5_cutoff_round_trip_witness :
    pullsPass (some (read_last_update "m")) c5Stream
        = (c5Stream.takeWhile (fun p => pyStrLe "m" p.updated_at)).map
            (fun p => (p.number, p))
    ∧ (⟨2, "m"⟩ : Pull) ∈ (pullsPass (some (read_last_update "m")) c5Stream).map
        Prod.snd
    ∧ (⟨3, "a"⟩ : Pull) ∉ (pullsPass (some (read_last_update "m")) c5Stream).map
        Prod.snd :=
  ⟨(c5_cutoff_round_trip "m" c5Stream (by decide) (by decide)).1,
    (c5_cutoff_round_trip "m" c5Stream (by decide) (by decide)).2.2
      ⟨2, "m"⟩ (by decide) (by decide),
    (c5_cutoff_round_trip "m" c5Stream (by decide) (by decide)).2.1
      ⟨3, "a"⟩ (by decide) (by decide)⟩

/-- Repository whose most recent update is "b", and one whose most recent
update is "a" < "b". -/
def c6RepoHigh : Repo := { updated_at := "b" }

def c6RepoLow : Repo := { updated_at := "a" }

/-- C6 counterexample: two consecutive successful incremental runs over the
same output directory — the second run reads the file the first one wrote —
where the repository whose `updated_at` was the maximum has disappeared from
the set by run N+1.  The cutoff written by the later run ("a") is strictly
below the cutoff written by the earlier run ("b"): the written cutoff is not
monotonically non-decreasing, because each run writes the maximum
`updated_at` of its *own* repository set, never consulting the previous
watermark. -/
theorem c6_monotonic_counterexample :
    (backup_repositories_watermark true none [c6RepoHigh] "a").written = some "b"
    ∧ (backup_repositories_watermark true
        (backup_repositories_watermark true none [c6RepoHigh] "a").written
        [c6RepoLow] "a").written = some "a"
    ∧ ¬ pyStrLe "b" "a" := by
  refine ⟨by decide, by decide, by decide⟩

/-- C6 amended: the cutoff written by each successful incremental run equals
the maximum `updated_at` of that run's repository set (or the current time
when the set is empty), so across two consecutive runs the written cutoff is
non-decreasing exactly when that maximum does not decrease. -/
theorem c6_monotonic_amended (file : Option String) (repos1 repos2 : List Repo)
    (now1 now2 : String)
    (h : pyStrLe (computeLastUpdate repos1 now1) (computeLastUpdate repos2 now2)) :
    (backup_repositories_watermark true file repos1 now1).written
        = some (computeLastUpdate repos1 now1)
    ∧ (backup_repositories_watermark true
          (backup_repositories_watermark true file repos1 now1).written
          repos2 now2).written
        = some (computeLastUpdate repos2 now2)
    ∧ ∀ w1 w2,
        (backup_repositories_watermark true file repos1 now1).written = some w1 →
        (backup_repositories_watermark true
          (backup_repositories_watermark true file repos1 now1).written
          repos2 now2).written = some w2 →
        pyStrLe w1 w2 := by
  refine ⟨rfl, rfl, ?_⟩
  intro w1 w2 h1 h2
  have e1 : some (computeLastUpdate repos1 now1) = some w1 := h1
  have e2 : some (computeLastUpdate repos2 now2) = some w2 := h2
  rw [Option.some_inj] at e1 e2
  rw [← e1, ← e2]
  exact h

/-- Witness for the amended C6: the repository set's maximum goes up from "a"
to "b" across the two runs, and so does the written cutoff. -/
theorem c6_monotonic_amended_witness :
    (backup_repositories_watermark true none [c6RepoLow] "a").written
        = some (computeLastUpdate [c6RepoLow] "a")
    ∧ pyStrLe "a" "b" :=
  ⟨(c6_monotonic_amended none [c6RepoLow] [c6RepoHigh] "a" "a" (by decide)).1,
    (c6_monotonic_amended none [c6RepoLow] [c6RepoHigh] "a" "a" (by decide)).2.2
      "a" "b" (by decide) (by decide)⟩

/-! ## `backup_issues` (lines 636-691): the open/closed merge

For each state in `['open', 'closed']` the source retrieves the issue list
and stores each kept issue in the `issues` dict under `issues[issue['number']]
= issue`; an issue carrying a `pull_request` marker is skipped (and counted)
when pull retrieval is also requested.  A Python dict maps each key to the
last value written, keeps one entry per key, and preserves the position of a
key on overwrite — modelled as an association list with exactly that update
rule. -/

structure Issue where
  number : Nat
  has_pull_request : Bool := false
  id : Nat := 0
  deriving DecidableEq

/-- Python `d[k] = v`: overwrite in place when the key is present, else append. -/
def dictInsert (m : List (Nat × Issue)) (k : Nat) (v : Issue) : List (Nat × Issue) :=
  if m.any (fun kv => kv.1 == k) then
    m.map (fun kv => if kv.1 == k then (k, v) else kv)
  else m ++ [(k, v)]

/-- Python `d[k]` / `d.get(k)`. -/
def dictLookup (m : List (Nat × Issue)) (k : Nat) : Option Issue :=
  (m.find? (fun kv => kv.1 == k)).map (fun kv => kv.2)

/-- The issues of one state pass that reach the dict assignment (lines
664-671): an issue with a `pull_request` key is skipped when
`should_include_pulls`. -/
def issuesKept (should_include_pulls : Bool) (l : List Issue) : List Issue :=
  l.filter (fun i => !(i.has_pull_request && should_include_pulls))

/-- The `issues` dict after both state passes of `backup_issues`. -/
def backup_issues_merge (should_include_pulls : Bool)
    (openIssues closedIssues : List Issue) : List (Nat × Issue) :=
  (issuesKept should_include_pulls openIssues
    ++ issuesKept should_include_pulls closedIssues).foldl
    (fun m i => dictInsert m i.number i) []

theorem dictLookup_map_update (m : List (Nat × Issue)) (k n : Nat) (v : Issue) :
    dictLookup (m.map (fun kv => if kv.1 == k then (k, v) else kv)) n
      = if n = k then (dictLookup m k).map (fun _ => v) else dictLookup m n := by
  induction m with
  | nil => by_cases h : n = k <;> simp [dictLookup, h]
  | cons a m ih =>
    by_cases hak : a.1 = k
    · by_cases hnk : n = k
      · subst hnk
        simp [dictLookup, List.find?_cons, hak]
      · have hkn : ¬ (k = n) := fun h => hnk h.symm
        simp [dictLookup, List.find?_cons, hak, hkn, hnk] at ih ⊢
        simpa [hnk] using ih
    · by_cases han : a.1 = n
      · have hnk : ¬ n = k := fun h => hak (han.trans h)
        simp [dictLookup, List.find?_cons, hak, han, hnk]
      · by_cases hnk : n = k <;>
          · simp [dictLookup, List.find?_cons, hak, han, hnk] at ih ⊢
            simpa [hnk] using ih

theorem dictLookup_insert (m : List (Nat × Issue)) (k : Nat) (v : Issue) (n : Nat) :
    dictLookup (dictInsert m k v) n = if n = k then some v else dictLookup m n := by
  unfold dictInsert
  by_cases h : m.any (fun kv => kv.1 == k)
  · rw [if_pos h, dictLookup_map_update]
    by_cases hnk : n = k
    · rcases List.any_eq_true.mp h with ⟨kv, hkv, hk⟩
      have hsome : (m.find? (fun kv => kv.1 == k)).isSome := by
        rw [List.find?_isSome]
        exact ⟨kv, hkv, hk⟩
      rcases Option.isSome_iff_exists.mp hsome with ⟨w, hw⟩
      simp [hnk, dictLookup, hw]
    · simp [hnk]
  · rw [if_neg h]
    have hnone : m.find? (fun kv => kv.1 == k) = none := by
      rw [List.find?_eq_none]
      intro kv hkv
      by_contra hc
      exact h (List.any_eq_true.mpr ⟨kv, hkv, by simpa using hc⟩)
    by_cases hnk : n = k
    · subst hnk
      simp [dictLookup, List.find?_append, hnone]
    · have hb : (((k, v) : Nat × Issue).1 == n) = false := by
        simp only [beq_eq_false_iff_ne, ne_eq]
        exact fun hc => hnk hc.symm
      have hlast : List.find? (fun kv => kv.1 == n) [(k, v)] = none := by
        simp [List.find?_cons, hb]
      simp only [dictLookup, List.find?_append, hlast]
      simp [hnk]

theorem dictInsert_keys (m : List (Nat × Issue)) (k : Nat) (v : Issue) :
    (dictInsert m k v).map Prod.fst
      = if m.any (fun kv => kv.1 == k) then m.map Prod.fst
        else m.map Prod.fst ++ [k] := by
  unfold dictInsert
  by_cases h : m.any (fun kv => kv.1 == k)
  · rw [if_pos h, if_pos h, List.map_map]
    refine List.map_congr_left ?_
    intro kv _
    by_cases hk : kv.1 = k <;> simp [hk]
  · rw [if_neg h, if_neg h]
    simp

theorem dictInsert_keys_nodup (m : List (Nat × Issue)) (k : Nat) (v : Issue)
    (h : (m.map Prod.fst).Nodup) : ((dictInsert m k v).map Prod.fst).Nodup := by
  rw [dictInsert_keys]
  by_cases ha : m.any (fun kv => kv.1 == k)
  · rwa [if_pos ha]
  · rw [if_neg ha]
    have hk : k ∉ m.map Prod.fst := by
      intro hmem
      rcases List.mem_map.mp hmem with ⟨kv, hkv, hfst⟩
      exact ha (List.any_eq_true.mpr ⟨kv, hkv, by simp [hfst]⟩)
    rw [List.nodup_append]
    refine ⟨h, by simp, ?_⟩
    intro a hmem hamem
    have ha2 : a = k := by simpa using hamem
    exact hk (ha2 ▸ hmem)

theorem foldl_dictInsert_keys_nodup (l : List Issue) (m : List (Nat × Issue))
    (h : (m.map Prod.fst).Nodup) :
    ((l.foldl (fun acc i => dictInsert acc i.number i) m).map Prod.fst).Nodup := by
  induction l generalizing m with
  | nil => exact h
  | cons i t ih => exact ih _ (dictInsert_keys_nodup m i.number i h)

theorem dictLookup_foldl (l : List Issue) (m : List (Nat × Issue)) (n : Nat) :
    dictLookup (l.foldl (fun acc i => dictInsert acc i.number i) m) n
      = (l.reverse.find? (fun i => i.number == n)).orElse
          (fun _ => dictLookup m n) := by
  induction l generalizing m with
  | nil => simp
  | cons i t ih =>
    rw [List.foldl_cons, ih, List.reverse_cons, List.find?_append]
    rcases hfind : t.reverse.find? (fun i => i.number == n) with _ | j
    · simp only [hfind, Option.none_orElse]
      rw [dictLookup_insert]
      by_cases hn : n = i.number
      · simp [List.find?_cons, hn]
      · have hb : ¬ (i.number == n) = true := by
          simpa using fun hc => absurd hc.symm hn
        simp [List.find?_cons, hb, hn]
    · simp [hfind]

/-- C7: last-write-wins merge of the open-state and closed-state issue passes.
The final `issues` dict maps each number `n` to the last kept issue carrying
that number in the processed stream (open pass first, then closed pass) — in
particular, for a pair of issues with the same number fetched under the two
states, the later-processed one is retained — and the dict holds at most one
entry per number. -/
theorem c7_issue_merge_last_write_wins (should_include_pulls : Bool)
    (openIssues closedIssues : List Issue) (n : Nat) :
    dictLookup (backup_issues_merge should_include_pulls openIssues closedIssues) n
      = (issuesKept should_include_pulls openIssues
          ++ issuesKept should_include_pulls closedIssues).reverse.find?
            (fun i => i.number == n)
    ∧ ((backup_issues_merge should_include_pulls openIssues closedIssues).map
        Prod.fst).Nodup
    ∧ (backup_issues_merge should_include_pulls openIssues closedIssues).countP
        (fun kv => kv.1 == n) ≤ 1 := by
  have hnodup : ((backup_issues_merge should_include_pulls openIssues
      closedIssues).map Prod.fst).Nodup :=
    foldl_dictInsert_keys_nodup _ [] (by simp)
  refine ⟨?_, hnodup, ?_⟩
  · rw [backup_issues_merge, dictLookup_foldl]
    rcases hfind : (issuesKept should_include_pulls openIssues
        ++ issuesKept should_include_pulls closedIssues).reverse.find?
          (fun i => i.number == n) with _ | j <;>
      simp [hfind, dictLookup]
  · have hcount := List.nodup_iff_count_le_one.mp hnodup n
    rw [List.count_eq_countP, List.countP_map] at hcount
    exact hcount

/-! ## `filter_repositories` (lines 529-555)

The settings the function reads off `args`.  The name-pattern filter applies
`re.match`, an external regular-expression engine, abstracted as a predicate
on the repository name; `priv` models `args.private`.  Python truthiness:
`args.languages` is skipped when `None` or the empty list, a repository's
`language` is skipped when missing or the empty string, and the `private` /
`public` / `fork` / `is_starred` keys default to falsy when absent. -/

structure FilterArgs where
  user : String
  name_regex : Option (String → Bool) := none
  languages : Option (List String) := none
  fork : Bool := false
  priv : Bool := false

def filter_repositories (args : FilterArgs) (unfiltered : List Repo) : List Repo :=
  let repositories := unfiltered.filter
    (fun r => r.owner_login == some args.user || r.is_starred)
  let languages : Option (List String) :=
    match args.languages with
    | none => none
    | some ls => if ls.isEmpty then none else some (ls.map pyLower)
  let repositories := if args.fork then repositories
    else repositories.filter (fun r => !r.fork)
  let repositories := if args.priv then repositories
    else repositories.filter (fun r => !r.priv || r.public.getD false)
  let repositories :=
    match languages with
    | none => repositories
    | some ls => repositories.filter (fun r =>
        match r.language with
        | none => false
        | some lang => !lang.data.isEmpty && ls.contains (pyLower lang))
  match args.name_regex with
  | none => repositories
  | some rx => repositories.filter (fun r => rx r.name)

/-- The two repositories of the spec's end-to-end filtering scenario, both
owned by the user running the backup. -/
def c8RepoA : Repo := { name := "a", owner_login := some "u", fork := true }

def c8RepoB : Repo :=
  { name := "b", owner_login := some "u", fork := false, language := some "Go" }

/-- The settings of the scenario: `fork=false`, `languages=["go"]`. -/
def c8Args : FilterArgs := { user := "u", languages := some ["go"], fork := false }

/-- C8: filtering `[{name:"a", fork:true}, {name:"b", fork:false,
language:"Go"}]` under `fork=false` and `languages=["go"]` yields exactly the
single repository named "b": the fork "a" is dropped by the fork filter and
"b" passes the case-insensitive language filter. -/
theorem c8_filter_scenario :
    filter_repositories c8Args [c8RepoA, c8RepoB] = [c8RepoB] := by
  decide

/-! ## `fetch_repository` (lines 851-918)

The git commands the reconcile operation can spawn, in invocation order.  The
environment records what the external world answers: whether the local
directory exists, whether `git rev-parse --is-bare-repository` prints
`true\n`, whether `<local_dir>/.git` exists, the exit code of
`git ls-remote`, and the output lines of `git remote show`. -/

inductive GitCmd where
  | revParseIsBare
  | lsRemote
  | remoteShow
  | remoteRm
  | remoteAdd
  | remoteSetUrl
  | lfsFetchAll
  | fetchAll
  | lfsCloneMirror
  | cloneMirror
  | lfsClone
  | clone
  deriving DecidableEq

structure GitEnv where
  localDirExists : Bool
  isBareRepo : Bool
  gitSubdirExists : Bool
  lsRemoteExit : Int
  remotes : List String
  deriving DecidableEq

/-- Trace of git invocations made by `fetch_repository`.  The function first
determines whether a clone already exists (for a bare clone by running
`rev-parse --is-bare-repository` when the directory exists, otherwise by the
presence of `.git`); with `skip_existing` it returns there.  It then probes
the remote with `git ls-remote` and returns on exit code 128 ("not
initialized").  Otherwise it updates the existing clone (recreate or re-point
`origin`, then fetch, LFS or plain) or clones afresh (mirror/plain × LFS). -/
def fetch_repository (env : GitEnv) (skip_existing bare_clone lfs_clone : Bool) :
    List GitCmd :=
  let pre : List GitCmd :=
    if bare_clone ∧ env.localDirExists then [GitCmd.revParseIsBare] else []
  let clone_exists : Bool :=
    if bare_clone then
      if env.localDirExists then env.isBareRepo else false
    else env.gitSubdirExists
  if clone_exists ∧ skip_existing then pre
  else
    let pre := pre ++ [GitCmd.lsRemote]
    if env.lsRemoteExit = 128 then pre
    else if clone_exists then
      let remoteCmds : List GitCmd :=
        if "origin" ∈ env.remotes then [GitCmd.remoteSetUrl]
        else [GitCmd.remoteRm, GitCmd.remoteAdd]
      let fetchCmd : GitCmd := if lfs_clone then GitCmd.lfsFetchAll else GitCmd.fetchAll
      pre ++ [GitCmd.remoteShow] ++ remoteCmds ++ [fetchCmd]
    else
      let cloneCmd : GitCmd :=
        if bare_clone then
          if lfs_clone then GitCmd.lfsCloneMirror else GitCmd.cloneMirror
        else
          if lfs_clone then GitCmd.lfsClone else GitCmd.clone
      pre ++ [cloneCmd]

/-- The clone and fetch commands among the git surface. -/
def isCloneOrFetch : GitCmd → Bool
  | GitCmd.lfsFetchAll => true
  | GitCmd.fetchAll => true
  | GitCmd.lfsCloneMirror => true
  | GitCmd.cloneMirror => true
  | GitCmd.lfsClone => true
  | GitCmd.clone => true
  | _ => false

/-- C9: whenever the remote-listing probe (`git ls-remote`) exits with code
128, `fetch_repository` returns without invoking any clone or fetch command —
for every combination of `skip_existing`, bare and LFS modes and every state
of the local clone. -/
theorem c9_uninitialized_remote_no_clone_fetch (env : GitEnv)
    (skip_existing bare_clone lfs_clone : Bool) (h : env.lsRemoteExit = 128) :
    ∀ c ∈ fetch_repository env skip_existing bare_clone lfs_clone,
      isCloneOrFetch c = false := by
  intro c hc
  cases bare_clone <;> cases skip_existing <;>
    cases hd : env.localDirExists <;> cases hb2 : env.isBareRepo <;>
    cases hg : env.gitSubdirExists <;>
      simp [fetch_repository, h, hd, hb2, hg] at hc <;>
      rcases hc with rfl | rfl <;> rfl

/-- Witness for C9: a bare, LFS-tracked, already-existing local mirror whose
remote probe answers 128 — the trace ends at the probe, whose command is not a
clone or fetch. -/
theorem c9_uninitialized_remote_no_clone_fetch_witness :
    isCloneOrFetch GitCmd.lsRemote = false :=
  c9_uninitialized_remote_no_clone_fetch ⟨true, true, true, 128, ["origin"]⟩
    false true true (by decide) GitCmd.lsRemote (by decide)

/-! ## `backup_hooks` and `_backup_data` (lines 801-817 and 961-970)

`_backup_data` skips everything when `skip_existing` is set and the output
file already exists; otherwise it creates the output directory and calls
`retrieve_data`, whose fatal paths raise `SystemExit` (via `log_error`) —
modelled by the scripted `fetch` outcome.  `backup_hooks` first derives the
credential (`get_auth`, an external collaborator returning `none` when no
credential can be derived) and returns at once when there is none; otherwise
it runs `_backup_data` and catches `SystemExit`, downgrading it to a logged
skip.  The trace records whether a directory was created, whether a network
request was issued, and whether the file was written. -/

structure BackupDataTrace where
  dirCreated : Bool
  requested : Bool
  wrote : Bool
  deriving DecidableEq

def _backup_data (skip_existing output_exists : Bool) (fetch : Except Unit Unit) :
    Except BackupDataTrace BackupDataTrace :=
  if skip_existing ∧ output_exists then Except.ok ⟨false, false, false⟩
  else
    match fetch with
    | Except.error _ => Except.error ⟨true, true, false⟩
    | Except.ok _ => Except.ok ⟨true, true, true⟩

inductive HooksOutcome where
  | skippedNoAuth
  | skippedUnreadable
  | completed
  deriving DecidableEq

def backup_hooks (auth : Option String) (skip_existing output_exists : Bool)
    (fetch : Except Unit Unit) : HooksOutcome × BackupDataTrace :=
  match auth with
  | none => (HooksOutcome.skippedNoAuth, ⟨false, false, false⟩)
  | some _ =>
    match _backup_data skip_existing output_exists fetch with
    | Except.error t => (HooksOutcome.skippedUnreadable, t)
    | Except.ok t => (HooksOutcome.completed, t)

/-- C10: hook backup never terminates the process.  With no derivable
credential it returns immediately, issuing no request and creating no
directory; and whenever `_backup_data` would exit fatally (any fatal fetch
error, not only authorization failures), `backup_hooks` still returns — with
a skip outcome — instead of propagating the exit. -/
theorem c10_hooks_never_fatal (auth : Option String)
    (skip_existing output_exists : Bool) (fetch : Except Unit Unit) :
    (auth = none →
      backup_hooks auth skip_existing output_exists fetch
        = (HooksOutcome.skippedNoAuth, ⟨false, false, false⟩))
    ∧ (∀ t, _backup_data skip_existing output_exists fetch = Except.error t →
        (backup_hooks auth skip_existing output_exists fetch).1
            = HooksOutcome.skippedNoAuth
        ∨ (backup_hooks auth skip_existing output_exists fetch).1
            = HooksOutcome.skippedUnreadable) := by
  constructor
  · intro h
    subst h
    rfl
  · intro t ht
    cases auth with
    | none => exact Or.inl rfl
    | some a =>
      right
      simp [backup_hooks, ht]

/-- Witness for C10: no credential gives the immediate no-op skip, and with a
credential plus a fatally failing fetch the outcome is the downgraded skip. -/
theorem c10_hooks_never_fatal_witness :
    backup_hooks none true true (Except.error ())
        = (HooksOutcome.skippedNoAuth, ⟨false, false, false⟩)
    ∧ ((backup_hooks (some "token") false false (Except.error ())).1
          = HooksOutcome.skippedNoAuth
      ∨ (backup_hooks (some "token") false false (Except.error ())).1
          = HooksOutcome.skippedUnreadable) :=
  ⟨(c10_hooks_never_fatal none true true (Except.error ())).1 rfl,
    (c10_hooks_never_fatal (some "token") false false (Except.error ())).2
      ⟨true, true, false⟩ rfl⟩

end GithubBackup
